import Mathlib

/-!
Verification of the Backup & Restore engine (`BackupService` in
`src/backend/src/modules/backup/dto/restore-backup.dto.ts`).

The service is shallowly embedded: files are byte lists, the metadata table is
a list of rows, the external `pg_dump` / `pg_restore` invocations are recorded
as the command strings the service builds, and their outcomes are supplied by
an environment record.  The AES-256-CBC primitive of the runtime's crypto
library is modelled by an abstract invertible 16-byte block cipher together
with the CBC chaining, PKCS#7 padding and the IV-prefix file layout that the
service relies on; `scrypt` and SHA-256 are modelled as abstract functions,
since none of the verified properties depend on their internals.
-/

namespace BackupSpec

/-- A file is a sequence of bytes (each a `Nat`; values are opaque to the
service logic). -/
abbrev Bytes := List Nat

/-- Byte-wise xor of two equal-length byte strings (truncating to the
shorter), as used by the CBC chaining model. -/
def xorBytes (a b : Bytes) : Bytes := List.zipWith (fun x y => x ^^^ y) a b

/-- AES block size: 16 bytes, the unit of CBC chaining and of the IV. -/
def blockSize : Nat := 16

/-- PKCS#7 pad length for an input of length `n` (always between 1 and 16). -/
def padLen (n : Nat) : Nat := blockSize - n % blockSize

/-- PKCS#7 padding, as applied by `aes-256-cbc` of the runtime crypto
library: append `p` copies of the byte `p`. -/
def pad (x : Bytes) : Bytes := x ++ List.replicate (padLen x.length) (padLen x.length)

/-- PKCS#7 unpadding: the last byte `p` must be between 1 and 16 and the last
`p` bytes must all equal `p`; otherwise the decipher reports a padding
error (`none`). -/
def unpad (y : Bytes) : Option Bytes :=
  let p := y.getLastD 0
  if 1 ≤ p ∧ p ≤ blockSize ∧ p ≤ y.length ∧ (y.drop (y.length - p)).all (fun b => b == p) then
    some (y.take (y.length - p))
  else
    none

/-- Split a byte string into consecutive 16-byte blocks (fuel-indexed so the
definition is structural and kernel-reducible). -/
def toBlocksAux : Nat → Bytes → List Bytes
  | 0, _ => []
  | _, [] => []
  | Nat.succ n, x => x.take blockSize :: toBlocksAux n (x.drop blockSize)

/-- Split a byte string into consecutive 16-byte blocks. -/
def toBlocks (x : Bytes) : List Bytes := toBlocksAux x.length x

/-- An invertible cipher on 16-byte blocks: the model of the AES-256 core
supplied by the runtime crypto library for a fixed key. -/
structure BlockCipher where
  enc : Bytes → Bytes
  dec : Bytes → Bytes
  dec_enc : ∀ b, b.length = blockSize → dec (enc b) = b
  enc_len : ∀ b, b.length = blockSize → (enc b).length = blockSize
  dec_len : ∀ b, b.length = blockSize → (dec b).length = blockSize

/-- CBC encryption of a block list: each plaintext block is xor-ed with the
previous ciphertext block (initially the IV) before the block cipher. -/
def cbcEnc (bc : BlockCipher) (prev : Bytes) : List Bytes → List Bytes
  | [] => []
  | b :: bs =>
    let c := bc.enc (xorBytes prev b)
    c :: cbcEnc bc c bs

/-- CBC decryption of a block list. -/
def cbcDec (bc : BlockCipher) (prev : Bytes) : List Bytes → List Bytes
  | [] => []
  | c :: cs => xorBytes prev (bc.dec c) :: cbcDec bc c cs

/-- The JavaScript expression `process.env.BACKUP_ENCRYPTION_KEY || 'default-key'`
from `encryptFile` / `decryptFile`: an absent *or empty* environment value
falls back to the hard-coded passphrase `"default-key"`. -/
def jsKeyOf (envKey : Option String) : String :=
  match envKey with
  | none => "default-key"
  | some s => if s = "" then "default-key" else s

/-- `encryptFile` file layout: a fresh 16-byte IV is written first, followed by
the CBC ciphertext of the PKCS#7-padded input.  (The cipher pipeline is
chunk-independent, so the encrypted bytes are a function of the input
bytes alone.) -/
def encryptFileBytes (bc : BlockCipher) (iv : Bytes) (x : Bytes) : Bytes :=
  iv ++ (cbcEnc bc iv (toBlocks (pad x))).flatten

/-- `decryptFile`, as implemented: the input stream's `data` events deliver a
list of chunks.  The handler takes the *first 16 bytes of the first chunk*
as the IV and only then attaches the decipher to the stream, so the first
chunk's bytes (beyond supplying the IV) are never written to the decipher;
only the remaining chunks are decrypted.  A stream that delivers no data,
a ciphertext that is not a whole number of blocks, or a padding failure
yields an error (`none`). -/
def decryptFileChunks (bc : BlockCipher) (chunks : List Bytes) : Option Bytes :=
  match chunks with
  | [] => none
  | c0 :: rest =>
    let iv := c0.take blockSize
    let ct := rest.flatten
    if ct.length % blockSize = 0 then
      unpad ((cbcDec bc iv (toBlocks ct)).flatten)
    else
      none

/-- The crypto collaborators of the service: `scrypt` key derivation, the
keyed block cipher, and the hex digest of `createHash('sha256')`. -/
structure Crypto where
  scryptKey : String → Bytes
  cipherOf : Bytes → BlockCipher
  hashHex : Bytes → String

/-- `encryptFile(inputPath, outputPath)` at the service level: derives the key
with the `default-key` fallback and always produces ciphertext — there is
no check that an external key is configured. -/
def encryptFile (c : Crypto) (envKey : Option String) (iv : Bytes) (input : Bytes) :
    Except String Bytes :=
  .ok (encryptFileBytes (c.cipherOf (c.scryptKey (jsKeyOf envKey))) iv input)

lemma map_xor_map_xor (k : Nat) (b : Bytes) :
    (b.map (fun x => x ^^^ k)).map (fun x => x ^^^ k) = b := by
  induction b with
  | nil => rfl
  | cons a t ih =>
    simp only [List.map_cons, ih, List.cons.injEq, and_true]
    rw [Nat.xor_assoc, Nat.xor_self, Nat.xor_zero]

/-- A concrete invertible block cipher (xor with a fixed byte), used to
instantiate the abstract AES model in closed counterexamples and
witnesses. -/
def xorBlockCipher (k : Nat) : BlockCipher where
  enc b := b.map (fun x => x ^^^ k)
  dec b := b.map (fun x => x ^^^ k)
  dec_enc b _ := map_xor_map_xor k b
  enc_len b h := by simpa using h
  dec_len b h := by simpa using h

/-- A concrete instantiation of the crypto collaborators for closed
evaluations. -/
def testCrypto : Crypto where
  scryptKey s := [s.length % 256]
  cipherOf bs := xorBlockCipher (bs.headD 0)
  hashHex b := "h" ++ toString b.length

/-- The all-zero IV used as the concrete random IV in closed evaluations. -/
def iv0 : Bytes := List.replicate blockSize 0

/-- Whether the first character list starts with the second one. -/
def leadsWith : List Char → List Char → Bool
  | _, [] => true
  | [], _ :: _ => false
  | c :: cs, p :: ps => c == p && leadsWith cs ps

/-- JavaScript `String.prototype.replace` with a string pattern: replace the
*first* occurrence of `pat` (here on the character lists of the
strings). -/
def replaceOnceAux (rep : List Char) : List Char → List Char → List Char
  | [], _ => []
  | c :: cs, pat =>
    if leadsWith (c :: cs) pat then rep ++ (c :: cs).drop pat.length
    else c :: replaceOnceAux rep cs pat

/-- JavaScript `s.replace(pat, rep)`: replace the first occurrence of `pat`
in `s` by `rep` (identity when `pat` does not occur). -/
def replaceOnce (s pat rep : String) : String :=
  String.mk (replaceOnceAux rep.data s.data pat.data)

/-- `type` column of a `BackupMetadata` row. -/
inductive BackupType
  | manual
  | scheduled
  | automatic
deriving DecidableEq, Repr

/-- `status` column of a `BackupMetadata` row. -/
inductive BackupStatus
  | pending
  | running
  | completed
  | failed
deriving DecidableEq, Repr

/-- A persisted `BackupMetadata` row.  `rowId` is the database-generated
primary-key column `id` (the `upsert` never supplies it, so it is filled by
the column default and is distinct from the service-generated
`backupId`). -/
structure Row where
  rowId : String
  backupId : String
  timestamp : Nat
  type : BackupType
  status : BackupStatus
  size : Nat
  checksum : String
  duration : Nat
  error : Option String
  path : String
deriving DecidableEq, Repr

/-- The artifact directory: an association list from paths to file bytes. -/
abbrev FS := List (String × Bytes)

/-- Look up the bytes stored at a path. -/
def fileAt : FS → String → Option Bytes
  | [], _ => none
  | (q, b) :: rest, p => if q = p then some b else fileAt rest p

/-- `fs.remove(path)`. -/
def fsRemove (fs : FS) (p : String) : FS := fs.filter (fun e => !(e.1 == p))

/-- Writing a file (used for the dump output, the encrypted artifact and the
decrypted scratch files). -/
def fsWrite (fs : FS) (p : String) (b : Bytes) : FS := (p, b) :: fsRemove fs p

/-- `fs.pathExists(path)`. -/
def pathExists (fs : FS) (p : String) : Bool := (fileAt fs p).isSome

/-- The overall service state: the `backupMetadata` table, the artifact
directory, and the in-memory `activeBackups` map (modelled by the list of
its keys). -/
structure State where
  db : List Row
  fs : FS
  active : List String
deriving DecidableEq, Repr

/-- The typed errors the service surfaces: `NotFoundException`,
`BadRequestException`, a plain `Error`, and the record-not-found error of
the ORM's `delete`. -/
inductive SvcError
  | notFoundError (msg : String)
  | badRequestError (msg : String)
  | plainError (msg : String)
  | ormNotFound (msg : String)
deriving DecidableEq, Repr

deriving instance DecidableEq for Except

/-- The connection fields extracted from `DATABASE_URL` by `new URL(...)`. -/
structure DbUrl where
  host : String
  port : String
  username : String
  password : String
  dbname : String
deriving DecidableEq, Repr

/-- The `pg_dump` command string built by `performBackup`. -/
def dumpCommandOf (u : DbUrl) (backupPath : String) : String :=
  "pg_dump --host=" ++ u.host ++ " --port=" ++ u.port ++ " --username=" ++ u.username ++
    " --dbname=" ++ u.dbname ++ " --no-password --format=custom --compress=9 --file=\"" ++
    backupPath ++ "\""

/-- The `pg_restore` command string built by `performRestore` (with
`--clean --if-exists` appended when `dropExisting` is set). -/
def restoreCommandOf (u : DbUrl) (dropExisting : Bool) (tempPath : String) : String :=
  "pg_restore --host=" ++ u.host ++ " --port=" ++ u.port ++ " --username=" ++ u.username ++
    " --dbname=" ++ u.dbname ++ " --no-password" ++
    (if dropExisting then " --clean --if-exists" else "") ++ " \"" ++ tempPath ++ "\""

/-- The environment of one backup-creation run: configuration, the outcome of
the external `pg_dump` invocation (the bytes it writes on success, its
error message on failure), the random IV, the generated `backupId`, the
database-generated row id, and the clock readings. -/
structure CreateEnv where
  databaseUrl : Option DbUrl
  encKey : Option String
  dumpResult : Except String Bytes
  iv : Bytes
  newBackupId : String
  newRowId : String
  timestamp : Nat
  duration : Nat

/-- The result object of a successful `performBackup`. -/
structure BackupResult where
  size : Nat
  checksum : String
  duration : Nat
  path : String
deriving DecidableEq, Repr

/-- `performBackup`: dump to `backups/<id>.sql`, take its size and the hex
digest of its bytes, encrypt it — note the output path passed to
`encryptFile` is `encryptedPath.replace('.enc', '')` — remove the raw
dump, and return size, checksum, duration and `encryptedPath`.  On a dump
failure the partial raw dump (if any) is removed and the error is
rethrown. -/
def performBackup (c : Crypto) (env : CreateEnv) (backupId : String) (fs : FS) :
    Except String BackupResult × FS × List String :=
  let backupPath := "backups/" ++ backupId ++ ".sql"
  let encryptedPath := "backups/" ++ backupId ++ ".enc"
  match env.databaseUrl with
  | none => (.error "DATABASE_URL غير محدد", fs, [])
  | some u =>
    let cmd := dumpCommandOf u backupPath
    match env.dumpResult with
    | .error m =>
      let fs1 := if pathExists fs backupPath then fsRemove fs backupPath else fs
      (.error m, fs1, [cmd])
    | .ok dumpBytes =>
      let fs1 := fsWrite fs backupPath dumpBytes
      let checksum := c.hashHex dumpBytes
      let encOutPath := replaceOnce encryptedPath ".enc" ""
      let encBytes := encryptFileBytes (c.cipherOf (c.scryptKey (jsKeyOf env.encKey))) env.iv dumpBytes
      let fs2 := fsWrite fs1 encOutPath encBytes
      let fs3 := fsRemove fs2 backupPath
      (.ok { size := dumpBytes.length, checksum := checksum,
             duration := env.duration, path := encryptedPath }, fs3, [cmd])

/-- `saveBackupMetadata`: an ORM `upsert` keyed by the `backupId` column —
update the mutable columns if a row with this `backupId` exists, otherwise
create a new row whose primary key is filled by the column default. -/
def upsertByBackupId (db : List Row) (m : Row) : List Row :=
  if db.any (fun r => r.backupId == m.backupId) then
    db.map (fun r =>
      if r.backupId == m.backupId then
        { r with status := m.status, size := m.size, checksum := m.checksum,
                 duration := m.duration, error := m.error, path := m.path }
      else r)
  else
    db ++ [m]

/-- The common body of `createManualBackup` / `createScheduledBackup` /
`createAutomaticBackup`: generate a fresh id, put a `pending` entry into
the `activeBackups` map, run `performBackup`, persist a `completed` row
with the result (or a `failed` row with the error message), and remove the
entry from `activeBackups` in the `finally` block.  There is no check of
`activeBackups` before starting: a call issued while another backup is
running starts a second pipeline unconditionally. -/
def createBackupCore (c : Crypto) (env : CreateEnv) (type : BackupType) (st : State) :
    Except String Row × State × List String :=
  let backupId := env.newBackupId
  let active1 := backupId :: st.active
  match performBackup c env backupId st.fs with
  | (.ok r, fs1, tr) =>
    let row : Row :=
      { rowId := env.newRowId, backupId := backupId, timestamp := env.timestamp,
        type := type, status := .completed, size := r.size, checksum := r.checksum,
        duration := r.duration, error := none, path := r.path }
    (.ok row, { db := upsertByBackupId st.db row, fs := fs1, active := active1.erase backupId }, tr)
  | (.error m, fs1, tr) =>
    let row : Row :=
      { rowId := env.newRowId, backupId := backupId, timestamp := env.timestamp,
        type := type, status := .failed, size := 0, checksum := "",
        duration := 0, error := some m, path := "" }
    (.error m, { db := upsertByBackupId st.db row, fs := fs1, active := active1.erase backupId }, tr)

/-- `createManualBackup`. -/
def createManualBackup (c : Crypto) (env : CreateEnv) (st : State) :
    Except String Row × State × List String :=
  createBackupCore c env .manual st

/-- `createAutomaticBackup(reason)` (the reason is only logged). -/
def createAutomaticBackup (c : Crypto) (env : CreateEnv) (_reason : String) (st : State) :
    Except String Row × State × List String :=
  createBackupCore c env .automatic st

/-- `getBackupMetadata(backupId)`: `findUnique` on the `backupId` column. -/
def getBackupMetadata (db : List Row) (backupId : String) : Option Row :=
  db.find? (fun r => r.backupId == backupId)

/-- `deleteBackup(backupId)`: look the record up by the `backupId` column,
remove the artifact file at its `path` if it exists, then issue the ORM
`delete` with `where: { id: backupId }` — i.e. against the *primary-key*
column — which throws its record-not-found error when no row's primary
key equals the given `backupId`. -/
def deleteBackup (st : State) (backupId : String) : Except SvcError Unit × State :=
  match getBackupMetadata st.db backupId with
  | none => (.error (.notFoundError ("النسخة الاحتياطية غير موجودة: " ++ backupId)), st)
  | some backup =>
    let fs1 := if pathExists st.fs backup.path then fsRemove st.fs backup.path else st.fs
    if st.db.any (fun r => r.rowId == backupId) then
      (.ok (), { st with fs := fs1, db := st.db.filter (fun r => !(r.rowId == backupId)) })
    else
      (.error (.ormNotFound ("Record to delete does not exist: " ++ backupId)),
        { st with fs := fs1 })

/-- The `for` loop of `cleanupOldBackups`: delete each selected row in order;
the first exception aborts the loop (it propagates to the surrounding
`catch`, which only logs). -/
def deleteLoop (st : State) : List Row → State
  | [] => st
  | r :: rs =>
    match deleteBackup st r.rowId with
    | (.ok _, st1) => deleteLoop st1 rs
    | (.error _, st1) => st1

/-- `cleanupOldBackups`: select the `completed` rows with `timestamp` older
than the retention cutoff and delete each via `deleteBackup(backup.id)` —
passing the row's *primary-key* `id`, not its `backupId`.  All errors are
swallowed. -/
def cleanupOldBackups (cutoff : Nat) (st : State) : State :=
  deleteLoop st (st.db.filter (fun r => decide (r.timestamp < cutoff) && decide (r.status = .completed)))

/-- `createScheduledBackup`: same pipeline; a success additionally runs
`cleanupOldBackups`, and errors are swallowed (logged only). -/
def createScheduledBackup (c : Crypto) (env : CreateEnv) (cutoff : Nat) (st : State) :
    State × List String :=
  match createBackupCore c env .scheduled st with
  | (.ok _, st1, tr) => (cleanupOldBackups cutoff st1, tr)
  | (.error _, st1, tr) => (st1, tr)

/-- The environment of a restore/verify run: configuration, how the read
stream chunks the encrypted file, and the outcome of the external
`pg_restore` invocation. -/
structure RestoreEnv where
  databaseUrl : Option DbUrl
  encKey : Option String
  chunksOf : Bytes → List Bytes
  restoreResult : Except String Unit

/-- The `RestoreOptions` argument of `restoreBackup`. -/
structure RestoreOptions where
  backupId : String
  targetDatabase : Option DbUrl
  dropExisting : Bool
  verifyOnly : Bool

/-- The bytes `decryptFile` produces from the file at `inputPath`: a missing
input file is a read-stream error, and the chunked decryption of its
content may fail (`decryptFileChunks`). -/
def decryptFileBytesAt (c : Crypto) (env : RestoreEnv) (fs : FS) (inputPath : String) :
    Except String Bytes :=
  match fileAt fs inputPath with
  | none => .error ("ENOENT: no such file or directory, open " ++ inputPath)
  | some content =>
    match decryptFileChunks (c.cipherOf (c.scryptKey (jsKeyOf env.encKey))) (env.chunksOf content) with
    | none => .error "bad decrypt"
    | some d => .ok d

/-- `decryptFile(inputPath, outputPath)` at the service level: read the file
at `inputPath`, decrypt its chunk sequence, and write the result to
`outputPath`. -/
def decryptFileOp (c : Crypto) (env : RestoreEnv) (fs : FS) (inputPath outputPath : String) :
    Except String (Bytes × FS) :=
  match decryptFileBytesAt c env fs inputPath with
  | .error m => .error m
  | .ok d => .ok (d, fsWrite fs outputPath d)

/-- `verifyBackup`: decrypt the artifact to `temp/verify_<id>`, hash the
decrypted bytes, compare with the stored checksum, and remove the scratch
file in the `finally` block.  No external tool is invoked. -/
def verifyBackup (c : Crypto) (env : RestoreEnv) (fs : FS) (backup : Row) :
    Except String Unit × FS :=
  let tempPath := "temp/verify_" ++ backup.backupId
  match decryptFileOp c env fs backup.path tempPath with
  | .error m => (.error m, if pathExists fs tempPath then fsRemove fs tempPath else fs)
  | .ok (d, fs1) =>
    let calcSum := c.hashHex d
    let fs2 := fsRemove fs1 tempPath
    if calcSum ≠ backup.checksum then
      (.error "Checksum غير متطابق - الملف تالف", fs2)
    else
      (.ok (), fs2)

/-- `performRestore`: decrypt the artifact to `temp/restore_<id>.sql`, build
the `pg_restore` command against `targetDatabase || DATABASE_URL` (with
`--clean --if-exists` when `dropExisting`), invoke it, and remove the
scratch file in the `finally` block.  No metadata is written and no
safety backup is created. -/
def performRestore (c : Crypto) (env : RestoreEnv) (fs : FS) (backup : Row)
    (targetDatabase : Option DbUrl) (dropExisting : Bool) :
    Except String Unit × FS × List String :=
  let tempPath := "temp/restore_" ++ backup.backupId ++ ".sql"
  match decryptFileOp c env fs backup.path tempPath with
  | .error m => (.error m, (if pathExists fs tempPath then fsRemove fs tempPath else fs), [])
  | .ok (_, fs1) =>
    match targetDatabase.orElse (fun _ => env.databaseUrl) with
    | none => (.error "DATABASE_URL غير محدد", fsRemove fs1 tempPath, [])
    | some u =>
      let cmd := restoreCommandOf u dropExisting tempPath
      match env.restoreResult with
      | .ok _ => (.ok (), fsRemove fs1 tempPath, [cmd])
      | .error m => (.error m, fsRemove fs1 tempPath, [cmd])

/-- `restoreBackup(options)`: look the record up by `backupId`
(`NotFoundException` when unknown, `BadRequestException` when not
`completed`), then either verify only or perform the restore.  The
returned trace is the list of external commands invoked. -/
def restoreBackup (c : Crypto) (env : RestoreEnv) (st : State) (opts : RestoreOptions) :
    Except SvcError Unit × State × List String :=
  match getBackupMetadata st.db opts.backupId with
  | none =>
    (.error (.notFoundError ("النسخة الاحتياطية غير موجودة: " ++ opts.backupId)), st, [])
  | some backup =>
    if backup.status ≠ BackupStatus.completed then
      (.error (.badRequestError ("النسخة الاحتياطية غير جاهزة للاستعادة: " ++ opts.backupId)), st, [])
    else if opts.verifyOnly then
      match verifyBackup c env st.fs backup with
      | (.ok _, fs1) => (.ok (), { st with fs := fs1 }, [])
      | (.error m, fs1) => (.error (.plainError m), { st with fs := fs1 }, [])
    else
      match performRestore c env st.fs backup opts.targetDatabase opts.dropExisting with
      | (.ok _, fs1, tr) => (.ok (), { st with fs := fs1 }, tr)
      | (.error m, fs1, tr) => (.error (.plainError m), { st with fs := fs1 }, tr)

/-- The ordering used by `getBackupList`: `orderBy: { timestamp: 'desc' }`. -/
def newerEq (a b : Row) : Prop := b.timestamp ≤ a.timestamp

instance : DecidableRel newerEq := fun a b => Nat.decLe b.timestamp a.timestamp

instance : IsTotal Row newerEq :=
  ⟨fun a b => (Nat.le_total b.timestamp a.timestamp).elim Or.inl Or.inr⟩

instance : IsTrans Row newerEq :=
  ⟨fun _ _ _ hab hbc => Nat.le_trans hbc hab⟩

/-- `getBackupList`: `findMany({ orderBy: { timestamp: 'desc' }, take: 100 })`
— the rows sorted by descending timestamp, truncated to the first 100. -/
def getBackupList (db : List Row) : List Row :=
  (List.insertionSort newerEq db).take 100

/-- The property claim C7 asserts of a persisted record: the file at the
record's `path` exists and is the encrypted artifact whose byte length is
the record's `size` and whose hex digest is the record's `checksum`. -/
def sizeChecksumOfArtifact (c : Crypto) (fs : FS) (r : Row) : Bool :=
  match fileAt fs r.path with
  | some b => (b.length == r.size) && (r.checksum == c.hashHex b)
  | none => false

lemma fileAt_fsRemove_ne (fs : FS) {p q : String} (h : p ≠ q) :
    fileAt (fsRemove fs q) p = fileAt fs p := by
  induction fs with
  | nil => rfl
  | cons e rest ih =>
    obtain ⟨a, b⟩ := e
    by_cases haq : a = q
    · have hap : a ≠ p := fun hap => h ((hap ▸ haq) ▸ rfl)
      calc fileAt (fsRemove ((a, b) :: rest) q) p
          = fileAt (fsRemove rest q) p := by
            simp [fsRemove, List.filter_cons, haq]
        _ = fileAt rest p := ih
        _ = fileAt ((a, b) :: rest) p := by simp [fileAt, hap]
    · calc fileAt (fsRemove ((a, b) :: rest) q) p
          = fileAt ((a, b) :: fsRemove rest q) p := by
            simp [fsRemove, List.filter_cons, haq]
        _ = fileAt ((a, b) :: rest) p := by
            by_cases hap : a = p
            · simp [fileAt, hap]
            · simp [fileAt, hap, ih]

lemma fileAt_fsWrite_self (fs : FS) (p : String) (b : Bytes) :
    fileAt (fsWrite fs p b) p = some b := by
  simp [fsWrite, fileAt]

lemma fileAt_fsWrite_ne (fs : FS) {p q : String} (b : Bytes) (h : p ≠ q) :
    fileAt (fsWrite fs q b) p = fileAt fs p := by
  have hqp : q ≠ p := fun e => h e.symm
  simp only [fsWrite, fileAt, hqp, if_false]
  exact fileAt_fsRemove_ne fs h

lemma string_ne_append_nonempty (s t : String) (ht : t.length ≠ 0) : s ≠ s ++ t := by
  intro h
  have hlen := congrArg String.length h
  rw [String.length_append] at hlen
  omega

lemma verifyBackup_fs_frame (c : Crypto) (env : RestoreEnv) (fs : FS) (backup : Row)
    {p : String} (hp : p ≠ "temp/verify_" ++ backup.backupId) :
    fileAt (verifyBackup c env fs backup).2 p = fileAt fs p := by
  unfold verifyBackup decryptFileOp
  cases hb : decryptFileBytesAt c env fs backup.path with
  | error m =>
    simp only [hb]
    by_cases he : pathExists fs ("temp/verify_" ++ backup.backupId)
    · simp [he, fileAt_fsRemove_ne fs hp]
    · simp [he]
  | ok d =>
    simp only [hb]
    by_cases hc : c.hashHex d ≠ backup.checksum
    · simp [hc, fileAt_fsRemove_ne _ hp, fileAt_fsWrite_ne _ _ hp]
    · simp [hc, fileAt_fsRemove_ne _ hp, fileAt_fsWrite_ne _ _ hp]

/-!  Concrete fixtures used by the closed evaluations below. -/

/-- A concrete connection descriptor. -/
def u0 : DbUrl :=
  { host := "localhost", port := "5432", username := "postgres",
    password := "secret", dbname := "pos" }

/-- The block cipher keyed (via the modelled `scrypt`) from the hard-coded
fallback passphrase. -/
def bcDefault : BlockCipher := testCrypto.cipherOf (testCrypto.scryptKey "default-key")

/-- A placeholder row (used only as the default of `List.headD`). -/
def dummyRow : Row :=
  { rowId := "", backupId := "", timestamp := 0, type := .manual, status := .pending,
    size := 0, checksum := "", duration := 0, error := none, path := "" }

/-- Environment of a create call issued while another backup is running. -/
def env1 : CreateEnv :=
  { databaseUrl := some u0, encKey := some "k", dumpResult := .ok [1, 2, 3],
    iv := iv0, newBackupId := "backup_B", newRowId := "ckB", timestamp := 10, duration := 5 }

/-- State in which the backup `backup_A` is currently running
(`activeBackups` is non-empty). -/
def st1 : State := { db := [], fs := [], active := ["backup_A"] }

/-- Environment of a successful create call from an empty state. -/
def env6 : CreateEnv :=
  { databaseUrl := some u0, encKey := some "k", dumpResult := .ok [1, 2, 3],
    iv := iv0, newBackupId := "backup_B6", newRowId := "ckB6", timestamp := 20, duration := 7 }

/-- The empty initial state. -/
def st0 : State := { db := [], fs := [], active := [] }

/-- A successful manual-backup run from the empty state. -/
def run6 : Except String Row × State × List String := createManualBackup testCrypto env6 st0

/-- The row persisted by `run6`. -/
def row7 : Row := run6.2.1.db.headD dummyRow

/-- A completed, restorable record whose artifact file is present at its
`path` (its content decrypts under the configured key). -/
def rowR : Row :=
  { rowId := "ckR", backupId := "backup_R", timestamp := 1, type := .manual,
    status := .completed, size := 1, checksum := "h1", duration := 1,
    error := none, path := "backups/backup_R.enc" }

/-- The encrypted artifact of `rowR` (plaintext `[7]` under key `"k"`). -/
def fileR : Bytes :=
  encryptFileBytes (testCrypto.cipherOf (testCrypto.scryptKey "k")) iv0 [7]

/-- State holding `rowR` and its artifact. -/
def st4 : State := { db := [rowR], fs := [("backups/backup_R.enc", fileR)], active := [] }

/-- Restore environment: key configured, the read stream delivers the 16-byte
IV as the first chunk and the ciphertext as the second, and the external
`pg_restore` succeeds. -/
def env4 : RestoreEnv :=
  { databaseUrl := some u0, encKey := some "k",
    chunksOf := fun b => [b.take 16, b.drop 16], restoreResult := .ok () }

/-- Options of a destructive restore of `rowR`. -/
def opts4 : RestoreOptions :=
  { backupId := "backup_R", targetDatabase := none, dropExisting := true, verifyOnly := false }

/-- Options of a verify-only restore of `rowR`. -/
def opts5 : RestoreOptions :=
  { backupId := "backup_R", targetDatabase := none, dropExisting := false, verifyOnly := true }

/-- An old completed record: its database primary key `ck1` differs from its
`backupId` (the primary key is database-generated, the `backupId` is
service-generated). -/
def rowOld : Row :=
  { rowId := "ck1", backupId := "backup_old", timestamp := 0, type := .manual,
    status := .completed, size := 3, checksum := "h3", duration := 1,
    error := none, path := "backups/backup_old.enc" }

/-- State holding `rowOld` and a file at its `path`. -/
def st8 : State :=
  { db := [rowOld], fs := [("backups/backup_old.enc", [9, 9, 9])], active := [] }

/-- Restore environment with no configured encryption key. -/
def envNoKey : RestoreEnv :=
  { databaseUrl := none, encKey := none,
    chunksOf := fun b => [b.take 16, b.drop 16], restoreResult := .ok () }

/-- The encrypted artifact of plaintext `[5]` under the fallback key. -/
def fileDefault : Bytes := encryptFileBytes bcDefault iv0 [5]

/-- A row of timestamp `i` (all other fields fixed), for the list fixture. -/
def mkRow (i : Nat) : Row :=
  { rowId := "", backupId := "", timestamp := i, type := .manual, status := .completed,
    size := 0, checksum := "", duration := 0, error := none, path := "" }

/-- 101 rows with timestamps `0..100`: one more than the `take: 100` limit. -/
def dbW : List Row := (List.range 101).map mkRow

/-- C1: a `createManualBackup` call issued while another backup is running
(`activeBackups` non-empty) is *not* rejected: no concurrency check exists,
so the call starts a second dump pipeline (the `pg_dump` command is
invoked) and completes normally instead of failing with a concurrency
error. -/
theorem createManualBackup_runs_while_active :
    st1.active = ["backup_A"] ∧
    (createManualBackup testCrypto env1 st1).1.isOk = true ∧
    (createManualBackup testCrypto env1 st1).2.2 =
      [dumpCommandOf u0 "backups/backup_B.sql"] := by
  decide

/-- C2: the round trip fails.  Encrypting the empty byte sequence produces a
32-byte file (IV plus one padding block); when the read stream delivers
that file as a single chunk (the default for files below the 64 KiB
high-water mark), `decryptFile` consumes the whole chunk while extracting
the IV, decrypts zero ciphertext bytes, and fails instead of returning the
original empty sequence. -/
theorem decryptFile_roundtrip_fails_empty :
    encryptFile testCrypto (some "secret-key") iv0 [] =
      .ok (encryptFileBytes (testCrypto.cipherOf (testCrypto.scryptKey "secret-key")) iv0 []) ∧
    decryptFileChunks (testCrypto.cipherOf (testCrypto.scryptKey "secret-key"))
      [encryptFileBytes (testCrypto.cipherOf (testCrypto.scryptKey "secret-key")) iv0 []] ≠
      some [] := by
  decide

/-- C3: with no configured `BACKUP_ENCRYPTION_KEY`, the engine does not
refuse to operate — both `encryptFile` and `decryptFile` silently fall
back to the hard-coded passphrase `"default-key"`: encryption succeeds
under the fallback key, and decryption of a file encrypted under the
fallback key succeeds as well. -/
theorem encryptFile_decryptFile_use_default_key :
    jsKeyOf none = "default-key" ∧
    encryptFile testCrypto none iv0 [5] = .ok fileDefault ∧
    decryptFileOp testCrypto envNoKey [("f.enc", fileDefault)] "f.enc" "tmp" =
      .ok ([5], fsWrite [("f.enc", fileDefault)] "tmp" [5]) := by
  decide

/-- C6: a successful backup run persists a `completed` record whose `path`
has *no* file on disk: the encrypted artifact is written to
`backups/<id>` (the `.enc` suffix is stripped from the output path passed
to `encryptFile`) while the record's `path` is `backups/<id>.enc`, so the
invariant `completed ⇒ artifact exists at path` fails at creation. -/
theorem completed_record_artifact_missing :
    run6.2.1.db.map (fun r => (r.status, r.path)) =
      [(BackupStatus.completed, "backups/backup_B6.enc")] ∧
    fileAt run6.2.1.fs "backups/backup_B6.enc" = none ∧
    fileAt run6.2.1.fs "backups/backup_B6" ≠ none := by
  decide

/-- C7 (counterexample): for the completed record persisted by a successful
run, the property "the file at the record's path exists, its byte length
is the record's `size`, and the record's `checksum` is its digest" is
false — the record's `size` is the *raw dump* length (3 here) and there
is no file at its `path` at all (the artifact, 32 bytes long, lives at
the path without the `.enc` suffix). -/
theorem sizeChecksum_artifact_false :
    row7.status = BackupStatus.completed ∧
    sizeChecksumOfArtifact testCrypto run6.2.1.fs row7 = false ∧
    row7.size = 3 ∧
    (encryptFileBytes (testCrypto.cipherOf (testCrypto.scryptKey "k")) iv0 [1, 2, 3]).length
      = 32 := by
  decide

/-- C8: a retention run deletes nothing.  The old completed record `rowOld`
is selected by the retention query, but `cleanupOldBackups` passes the
row's database primary key to `deleteBackup`, whose lookup by the
`backupId` column finds nothing; the resulting `NotFoundException` is
swallowed and the state — metadata row and artifact file — is returned
unchanged. -/
theorem cleanupOldBackups_deletes_nothing :
    st8.db.filter
        (fun r => decide (r.timestamp < 100) && decide (r.status = BackupStatus.completed)) =
      [rowOld] ∧
    cleanupOldBackups 100 st8 = st8 := by
  decide

/-- C9: `deleteBackup` on an existing record removes the artifact file and
*then* fails: the ORM `delete` filters on the primary-key column with the
`backupId` value, matches no row, and throws — leaving the metadata row
behind while its artifact file is already gone (an orphan row), instead
of removing both together or leaving both on failure. -/
theorem deleteBackup_orphan_row :
    (deleteBackup st8 "backup_old").1 =
      .error (.ormNotFound "Record to delete does not exist: backup_old") ∧
    fileAt (deleteBackup st8 "backup_old").2.fs "backups/backup_old.enc" = none ∧
    (deleteBackup st8 "backup_old").2.db = [rowOld] := by
  decide

/-- C4 (counterexample): a destructive restore (`dropExisting = true`,
`verifyOnly = false`) of a valid completed backup succeeds and invokes the
external restore tool with `--clean --if-exists`, yet afterwards the
metadata table contains *no* record of type `automatic`: no pre-restore
safety backup is created at any point. -/
theorem restoreBackup_no_safety_backup_run :
    (restoreBackup testCrypto env4 st4 opts4).1 = .ok () ∧
    (restoreBackup testCrypto env4 st4 opts4).2.2 =
      [restoreCommandOf u0 true "temp/restore_backup_R.sql"] ∧
    (restoreBackup testCrypto env4 st4 opts4).2.1.db.filter
        (fun r => decide (r.type = BackupType.automatic)) = [] := by
  decide

/-- C4 (amended): `restoreBackup` never writes to the metadata table at all —
in particular a non-verify destructive restore proceeds directly to
decrypting and invoking the external restore tool without first creating
an automatic safety backup record. -/
theorem restoreBackup_db_unchanged (c : Crypto) (env : RestoreEnv) (st : State)
    (opts : RestoreOptions) :
    (restoreBackup c env st opts).2.1.db = st.db := by
  simp only [restoreBackup]
  cases hM : getBackupMetadata st.db opts.backupId with
  | none => rfl
  | some backup =>
    by_cases hst : backup.status ≠ BackupStatus.completed
    · simp [hst]
    · simp only [hst, ite_false]
      by_cases hv : opts.verifyOnly
      · simp only [hv, ite_true]
        rcases verifyBackup c env st.fs backup with ⟨res, fs1⟩
        cases res <;> rfl
      · simp only [hv, ite_false]
        rcases performRestore c env st.fs backup opts.targetDatabase opts.dropExisting with
          ⟨res, fs1, tr⟩
        cases res <;> rfl

/-- C5: a verify-only restore is pure with respect to the target store: no
external command is invoked (the trace is empty), the metadata table is
unchanged, and the artifact directory is unchanged except at the scratch
path `temp/verify_<id>` (which is removed). -/
theorem restoreBackup_verifyOnly_pure (c : Crypto) (env : RestoreEnv) (st : State)
    (opts : RestoreOptions) (p : String)
    (hv : opts.verifyOnly = true) (hp : p ≠ "temp/verify_" ++ opts.backupId) :
    (restoreBackup c env st opts).2.2 = [] ∧
    (restoreBackup c env st opts).2.1.db = st.db ∧
    fileAt (restoreBackup c env st opts).2.1.fs p = fileAt st.fs p := by
  simp only [restoreBackup]
  cases hM : getBackupMetadata st.db opts.backupId with
  | none => exact ⟨rfl, rfl, rfl⟩
  | some backup =>
    have hbid : backup.backupId = opts.backupId := by
      have h1 := List.find?_some hM
      exact eq_of_beq h1
    rw [← hbid] at hp
    by_cases hst : backup.status ≠ BackupStatus.completed
    · simp [hst]
    · simp only [hst, ite_false, hv, ite_true]
      have hframe := verifyBackup_fs_frame c env st.fs backup hp
      cases hV : verifyBackup c env st.fs backup with
      | mk res fs1 =>
        rw [hV] at hframe
        cases res <;> exact ⟨rfl, rfl, hframe⟩

/-- Witness for C5 at a concrete input: a verify-only restore of `rowR`
leaves the artifact file untouched, runs no external command, and leaves
the metadata table unchanged. -/
theorem restoreBackup_verifyOnly_pure_witness :
    opts5.verifyOnly = true ∧
    "backups/backup_R.enc" ≠ "temp/verify_" ++ opts5.backupId ∧
    ((restoreBackup testCrypto env4 st4 opts5).2.2 = [] ∧
      (restoreBackup testCrypto env4 st4 opts5).2.1.db = st4.db ∧
      fileAt (restoreBackup testCrypto env4 st4 opts5).2.1.fs "backups/backup_R.enc" =
        fileAt st4.fs "backups/backup_R.enc") :=
  ⟨rfl, by decide,
    restoreBackup_verifyOnly_pure testCrypto env4 st4 opts5 "backups/backup_R.enc"
      rfl (by decide)⟩

/-- C7 (amended): for every successful backup run, the persisted `size` is
the byte length of the *raw* (pre-encryption) dump, the persisted
`checksum` is the digest of the raw dump bytes, the record's `path`
carries the `.enc` suffix — and the encrypted artifact itself is stored
at `backups/<id>` (that path with the suffix stripped). -/
theorem performBackup_size_checksum_raw (c : Crypto) (env : CreateEnv) (id : String)
    (fs : FS) (u : DbUrl) (bytes : Bytes)
    (hu : env.databaseUrl = some u) (hd : env.dumpResult = .ok bytes)
    (hid : replaceOnce ("backups/" ++ id ++ ".enc") ".enc" "" = "backups/" ++ id) :
    (performBackup c env id fs).1 =
      .ok { size := bytes.length, checksum := c.hashHex bytes,
            duration := env.duration, path := "backups/" ++ id ++ ".enc" } ∧
    fileAt (performBackup c env id fs).2.1 ("backups/" ++ id) =
      some (encryptFileBytes (c.cipherOf (c.scryptKey (jsKeyOf env.encKey))) env.iv bytes) := by
  have hne : "backups/" ++ id ≠ "backups/" ++ id ++ ".sql" :=
    string_ne_append_nonempty ("backups/" ++ id) ".sql" (by decide)
  simp only [performBackup, hu, hd, hid]
  refine ⟨by trivial, ?_⟩
  rw [fileAt_fsRemove_ne _ hne, fileAt_fsWrite_self]

/-- Witness for C7's amended statement at a concrete input (`run6`'s
environment: dump bytes `[1,2,3]`). -/
theorem performBackup_size_checksum_raw_witness :
    env6.databaseUrl = some u0 ∧
    env6.dumpResult = .ok [1, 2, 3] ∧
    replaceOnce ("backups/" ++ "backup_B6" ++ ".enc") ".enc" "" = "backups/" ++ "backup_B6" ∧
    ((performBackup testCrypto env6 "backup_B6" []).1 =
        .ok { size := ([1, 2, 3] : Bytes).length, checksum := testCrypto.hashHex [1, 2, 3],
              duration := env6.duration, path := "backups/" ++ "backup_B6" ++ ".enc" } ∧
      fileAt (performBackup testCrypto env6 "backup_B6" []).2.1 ("backups/" ++ "backup_B6") =
        some (encryptFileBytes
          (testCrypto.cipherOf (testCrypto.scryptKey (jsKeyOf env6.encKey))) env6.iv
          [1, 2, 3])) :=
  ⟨rfl, rfl, by decide,
    performBackup_size_checksum_raw testCrypto env6 "backup_B6" [] u0 [1, 2, 3]
      rfl rfl (by decide)⟩

/-- C10: `getBackupList` returns at most 100 records, they are ordered by
descending timestamp, and every record of the table it omits is no newer
than any record it returns (the result is the 100 most recent rows). -/
theorem getBackupList_spec (db : List Row) (r s : Row)
    (hr : r ∈ db) (hrn : r ∉ getBackupList db) (hs : s ∈ getBackupList db) :
    (getBackupList db).length ≤ 100 ∧
    List.Sorted newerEq (getBackupList db) ∧
    r.timestamp ≤ s.timestamp := by
  have hsorted : List.Sorted newerEq (List.insertionSort newerEq db) :=
    List.sorted_insertionSort newerEq db
  refine ⟨List.length_take_le _ _,
    List.Pairwise.sublist (List.take_sublist _ _) hsorted, ?_⟩
  have hperm := List.perm_insertionSort newerEq db
  have hrs : r ∈ List.insertionSort newerEq db := hperm.mem_iff.mpr hr
  have hsplit := List.take_append_drop 100 (List.insertionSort newerEq db)
  have hrd : r ∈ List.drop 100 (List.insertionSort newerEq db) := by
    rw [← hsplit] at hrs
    rcases List.mem_append.mp hrs with h | h
    · exact absurd h hrn
    · exact h
  have hpw : List.Pairwise newerEq
      (List.take 100 (List.insertionSort newerEq db) ++
        List.drop 100 (List.insertionSort newerEq db)) := by
    rw [hsplit]; exact hsorted
  exact (List.pairwise_append.mp hpw).2.2 s hs r hrd

/-- Witness for C10 at a concrete table of 101 rows: the oldest row is
omitted, the newest is returned, and the conclusions hold. -/
theorem getBackupList_spec_witness :
    mkRow 0 ∈ dbW ∧ mkRow 0 ∉ getBackupList dbW ∧ mkRow 100 ∈ getBackupList dbW ∧
    ((getBackupList dbW).length ≤ 100 ∧
      List.Sorted newerEq (getBackupList dbW) ∧
      (mkRow 0).timestamp ≤ (mkRow 100).timestamp) :=
  ⟨by decide, by decide, by decide,
    getBackupList_spec dbW (mkRow 0) (mkRow 100) (by decide) (by decide) (by decide)⟩

end BackupSpec
